import Mathlib

/-!
Verification development for the kiro account-rotation plugin.

The definitions below are a shallow embedding of the TypeScript sources:
`src/plugin/accounts.ts` (account pool and selection strategies),
`src/plugin/storage.ts` (locked persistence), `src/plugin/usage.ts`
(quota arithmetic) and the account-quota helper module
(`checkQuotaStatus`, `sortAccountsByQuota`, `getRemainingQuota`).

JavaScript optional number/string fields are embedded as `Option Nat` /
`Option String`; JavaScript truthiness (`undefined` and `0` and `""` are
falsy) is captured by `truthyN` / `truthyS`.  Time (`Date.now()`) is an
explicit `now : Nat` parameter.  Mutation of account objects held in the
pool array is embedded as explicit state passing on an `AccountManager`
structure, with in-place element mutation rendered by `List.set` at the
element's position (JavaScript array elements are distinct references, so
`indexOf` of a filtered element is exactly its position).
-/

namespace Kiro

/-- JavaScript truthiness of an optional number: `undefined` and `0` are falsy. -/
def truthyN (o : Option Nat) : Bool :=
  match o with
  | none => false
  | some n => n != 0

/-- JavaScript truthiness of an optional string: `undefined` and `""` are falsy. -/
def truthyS (o : Option String) : Bool :=
  match o with
  | none => false
  | some s => s != ""

/-- Embedding of `ManagedAccount` (fields as used by `accounts.ts`). -/
structure ManagedAccount where
  id : String
  email : String
  authMethod : String
  region : Option String
  profileArn : Option String
  clientId : Option String
  clientSecret : Option String
  refreshToken : String
  accessToken : String
  expiresAt : Nat
  lastUsed : Option Nat
  usedCount : Option Nat
  limitCount : Option Nat
  realEmail : Option String
  rateLimitResetTime : Option Nat
  isHealthy : Bool
  unhealthyReason : Option String
  recoveryTime : Option Nat
deriving Repr, DecidableEq

/-- A default account record (used only as the `getD` fallback; every
indexed access in the development is at an in-range position). -/
def dfltAccount : ManagedAccount :=
  { id := "", email := "", authMethod := "", region := none, profileArn := none,
    clientId := none, clientSecret := none, refreshToken := "", accessToken := "",
    expiresAt := 0, lastUsed := none, usedCount := none, limitCount := none,
    realEmail := none, rateLimitResetTime := none, isHealthy := true,
    unhealthyReason := none, recoveryTime := none }

instance : Inhabited ManagedAccount := ⟨dfltAccount⟩

/-- Embedding of the exported `isAccountAvailable` from `accounts.ts`:
``
if (!account.isHealthy) {
  if (account.recoveryTime && now >= account.recoveryTime) return true;
  return false;
}
if (account.rateLimitResetTime && now < account.rateLimitResetTime) return false;
return true;
``
-/
def isAccountAvailable (account : ManagedAccount) (now : Nat) : Bool :=
  if !account.isHealthy then
    truthyN account.recoveryTime && decide (account.recoveryTime.getD 0 ≤ now)
  else
    !(truthyN account.rateLimitResetTime && decide (now < account.rateLimitResetTime.getD 0))

/-- The body of `isAccountAvailable` contains no assignment, so the
state-passing reading of evaluating it on an account is the identity on
the account paired with the returned boolean. -/
def evalIsAccountAvailable (account : ManagedAccount) (now : Nat) :
    Bool × ManagedAccount :=
  (isAccountAvailable account now, account)

/-- One step of the filter callback inside `AccountManager.getCurrentOrNext`:
returns the keep-decision and the (possibly recovered) account.  Unlike
`isAccountAvailable`, the unhealthy-but-recoverable branch mutates the
account (`isHealthy = true`, `delete unhealthyReason`, `delete recoveryTime`)
and returns `true` without consulting `rateLimitResetTime`. -/
def availabilityStep (now : Nat) (account : ManagedAccount) :
    Bool × ManagedAccount :=
  if !account.isHealthy then
    if truthyN account.recoveryTime && decide (account.recoveryTime.getD 0 ≤ now) then
      (true, { account with isHealthy := true, unhealthyReason := none, recoveryTime := none })
    else
      (false, account)
  else if truthyN account.rateLimitResetTime && decide (now < account.rateLimitResetTime.getD 0) then
    (false, account)
  else
    (true, account)

/-- Embedding of `isQuotaExhausted` from `usage.ts`: `usedCount >= limitCount`. -/
def isQuotaExhausted (usedCount limitCount : Nat) : Bool :=
  decide (limitCount ≤ usedCount)

/-- Embedding of `calculateUsagePercentage` from `usage.ts`:
`Math.round((usedCount / limitCount) * 100)`, with `0` when `limitCount`
is falsy or non-positive.  For naturals, `Math.round q = ⌊q + 1/2⌋`, i.e.
`(200 * used + limit) / (2 * limit)` in integer division. -/
def calculateUsagePercentage (usedCount limitCount : Nat) : Nat :=
  if limitCount = 0 then 0
  else (200 * usedCount + limitCount) / (2 * limitCount)

/-- Embedding of `getRemainingCount` from `usage.ts`: `max(0, limitCount - usedCount)`
(on naturals, subtraction already truncates at zero). -/
def getRemainingCount (usedCount limitCount : Nat) : Nat :=
  max 0 (limitCount - usedCount)

inductive QuotaStatus where
  | healthy
  | warning
  | exhausted
deriving Repr, DecidableEq

/-- Embedding of `checkQuotaStatus` from the account-quota module:
``
if (!account.usedCount || !account.limitCount) return 'healthy';
if (isQuotaExhausted(usage)) return 'exhausted';
if (calculateUsagePercentage(usage) >= 80) return 'warning';
return 'healthy';
``
-/
def checkQuotaStatus (account : ManagedAccount) : QuotaStatus :=
  if !truthyN account.usedCount || !truthyN account.limitCount then .healthy
  else if isQuotaExhausted (account.usedCount.getD 0) (account.limitCount.getD 0) then .exhausted
  else if 80 ≤ calculateUsagePercentage (account.usedCount.getD 0) (account.limitCount.getD 0) then .warning
  else .healthy

/-- Embedding of `getRemainingQuota` from the account-quota module.
`Infinity` (returned when `usedCount` or `limitCount` is falsy) is
embedded as `none`. -/
def getRemainingQuota (account : ManagedAccount) : Option Nat :=
  if !truthyN account.usedCount || !truthyN account.limitCount then none
  else some (getRemainingCount (account.usedCount.getD 0) (account.limitCount.getD 0))

/-- The comparator of `sortAccountsByQuota` as a boolean "sorts no later
than" relation: the JavaScript comparator is `bRemaining - aRemaining`
(descending), with `Infinity - Infinity = NaN` coerced to `0` (a tie) by
the sort. -/
def quotaLE (a b : ManagedAccount) : Bool :=
  match getRemainingQuota a, getRemainingQuota b with
  | none, _ => true
  | some _, none => false
  | some j, some k => decide (k ≤ j)

/-- `quotaLE` as a binary relation (the form Mathlib's sorting lemmas
expect). -/
def QuotaBefore (a b : ManagedAccount) : Prop := quotaLE a b = true

instance : DecidableRel QuotaBefore := fun a b => by
  unfold QuotaBefore
  infer_instance

/-- Embedding of `sortAccountsByQuota`: a stable sort of a copy of the
list, descending by remaining quota.  JavaScript's `Array.prototype.sort`
is stable and `quotaLE` is a total preorder, so the stable sort result is
unique; `insertionSort` is the structurally recursive stable sort. -/
def sortAccountsByQuota (accounts : List ManagedAccount) : List ManagedAccount :=
  List.insertionSort QuotaBefore accounts

instance : IsTotal ManagedAccount QuotaBefore := ⟨by
  intro a b
  unfold QuotaBefore quotaLE
  rcases getRemainingQuota a with _ | j <;> rcases getRemainingQuota b with _ | k <;> simp
  omega⟩

instance : IsTrans ManagedAccount QuotaBefore := ⟨by
  intro a b c hab hbc
  unfold QuotaBefore quotaLE at hab hbc ⊢
  rcases ha : getRemainingQuota a with _ | j <;> rcases hb : getRemainingQuota b with _ | k <;>
    rcases hc : getRemainingQuota c with _ | n <;> simp_all
  omega⟩

/-- Embedding of the persisted per-account usage record (`UsageMetadata`). -/
structure UsageMetadata where
  usedCount : Nat
  limitCount : Nat
  realEmail : Option String
  lastSync : Nat
deriving Repr, DecidableEq

/-- A JavaScript object used as a map from account id to usage record,
embedded as an insertion-ordered association list with unique keys. -/
abbrev UsageMap : Type := List (String × UsageMetadata)

/-- `this.usage[accountId]` (lookup). -/
def usageLookup (u : UsageMap) (k : String) : Option UsageMetadata :=
  (u.find? (fun p => p.1 == k)).map Prod.snd

/-- `this.usage[accountId] = v` (upsert; a new key is appended in
insertion order, an existing key is overwritten in place). -/
def usageInsert (u : UsageMap) (k : String) (v : UsageMetadata) : UsageMap :=
  if u.any (fun p => p.1 == k) then
    u.map (fun p => if p.1 == k then (k, v) else p)
  else
    u ++ [(k, v)]

/-- `delete this.usage[accountId]`. -/
def usageErase (u : UsageMap) (k : String) : UsageMap :=
  u.filter (fun p => p.1 != k)

inductive AccountSelectionStrategy where
  | sticky
  | roundRobin
  | lowestUsage
deriving Repr, DecidableEq

/-- Embedding of the `AccountManager` state (the transient toast-debounce
fields are omitted: no operation under study reads them). -/
structure AccountManager where
  accounts : List ManagedAccount
  usage : UsageMap
  cursor : Nat
  strategy : AccountSelectionStrategy
deriving Repr, DecidableEq

/-- The `// Sync usage into accounts` loop of the `AccountManager`
constructor: for each account whose id has a usage record, overwrite
`usedCount`, `limitCount`, `realEmail` from that record. -/
def syncUsageIntoAccounts (accounts : List ManagedAccount) (usage : UsageMap) :
    List ManagedAccount :=
  accounts.map (fun a =>
    match usageLookup usage a.id with
    | some meta =>
        { a with usedCount := some meta.usedCount,
                 limitCount := some meta.limitCount,
                 realEmail := meta.realEmail }
    | none => a)

/-- Embedding of the `AccountManager` constructor. -/
def mkAccountManager (accounts : List ManagedAccount) (usage : UsageMap)
    (strategy : AccountSelectionStrategy) : AccountManager :=
  { accounts := syncUsageIntoAccounts accounts usage,
    usage := usage, cursor := 0, strategy := strategy }

/-- `account.lastUsed = now; account.usedCount = (account.usedCount || 0) + 1`. -/
def bumpAccount (now : Nat) (a : ManagedAccount) : ManagedAccount :=
  { a with lastUsed := some now, usedCount := some (a.usedCount.getD 0 + 1) }

/-- The positions (into the pool list) kept by the availability filter of
`getCurrentOrNext`.  The filtered `availableAccounts` array holds
references to the pool's elements; the ascending position list stands for
that reference list. -/
def availIdx (now : Nat) (accounts : List ManagedAccount) : List Nat :=
  (List.range accounts.length).filter
    (fun i => (availabilityStep now (accounts.getD i dfltAccount)).1)

/-- The pool list after the availability filter has run (the filter
callback mutates recoverable accounts in place). -/
def recoverAll (now : Nat) (accounts : List ManagedAccount) : List ManagedAccount :=
  (accounts.map (availabilityStep now)).map Prod.snd

/-- The comparator of the `lowest-usage` sort as a boolean "sorts no later
than" relation: ascending `usedCount || 0`, ties broken by ascending
`lastUsed || 0`. -/
def lowestUsageLE (a b : ManagedAccount) : Bool :=
  decide (a.usedCount.getD 0 < b.usedCount.getD 0) ||
    (a.usedCount.getD 0 == b.usedCount.getD 0 && decide (a.lastUsed.getD 0 ≤ b.lastUsed.getD 0))

/-- Select the account at pool position `p`: stamp `lastUsed`, bump
`usedCount`, store the mutated element back, set the cursor to `c`, and
return the selected (mutated) reference. -/
def selectAt (now : Nat) (m : AccountManager) (accounts1 : List ManagedAccount)
    (p c : Nat) : Option ManagedAccount × AccountManager :=
  match accounts1.get? p with
  | some a =>
      let sel := bumpAccount now a
      (some sel, { m with accounts := accounts1.set p sel, cursor := c })
  | none => (none, { m with accounts := accounts1 })

/-- The `if (nextAvailable) {...}` fallback of the sticky branch: take the
first available account, move the cursor to its full-list position. -/
def stickyFallback (now : Nat) (m : AccountManager)
    (accounts1 : List ManagedAccount) (availPos : List Nat) :
    Option ManagedAccount × AccountManager :=
  match availPos.head? with
  | some p => selectAt now m accounts1 p p
  | none => (none, { m with accounts := accounts1 })

/-- Embedding of `AccountManager.getCurrentOrNext`.  The filter pass runs
first (with its lazy-recovery mutations); then the strategy branch picks
a position in the filtered list, mutates that element, and returns it. -/
def getCurrentOrNext (m : AccountManager) (now : Nat) :
    Option ManagedAccount × AccountManager :=
  let accounts1 := recoverAll now m.accounts
  let availPos := availIdx now m.accounts
  if availPos.isEmpty then (none, { m with accounts := accounts1 })
  else
    match m.strategy with
    | .sticky =>
        match accounts1.get? m.cursor with
        | some cur =>
            if isAccountAvailable cur now then
              selectAt now m accounts1 m.cursor m.cursor
            else
              stickyFallback now m accounts1 availPos
        | none => stickyFallback now m accounts1 availPos
    | .roundRobin =>
        selectAt now m accounts1 (availPos.getD (m.cursor % availPos.length) 0)
          ((m.cursor + 1) % availPos.length)
    | .lowestUsage =>
        let sortedPos := List.insertionSort (fun p q =>
          lowestUsageLE (accounts1.getD p dfltAccount) (accounts1.getD q dfltAccount) = true)
          availPos
        match sortedPos.head? with
        | some p => selectAt now m accounts1 p p
        | none => (none, { m with accounts := accounts1 })

/-- Embedding of `AccountManager.updateUsage`: overwrite the live
account's counters (and `realEmail` when truthy), then unconditionally
upsert the usage record under `accountId`. -/
def updateUsage (m : AccountManager) (accountId : String)
    (usedCount limitCount : Nat) (realEmail : Option String) (now : Nat) :
    AccountManager :=
  let accounts' :=
    match m.accounts.findIdx? (fun a => a.id == accountId) with
    | some i =>
        let a := m.accounts.getD i dfltAccount
        m.accounts.set i
          { a with usedCount := some usedCount, limitCount := some limitCount,
                   realEmail := if truthyS realEmail then realEmail else a.realEmail }
    | none => m.accounts
  { m with accounts := accounts',
           usage := usageInsert m.usage accountId
             { usedCount := usedCount, limitCount := limitCount,
               realEmail := realEmail, lastSync := now } }

/-- Embedding of `AccountManager.addAccount` (upsert by id). -/
def addAccount (m : AccountManager) (account : ManagedAccount) : AccountManager :=
  match m.accounts.findIdx? (fun a => a.id == account.id) with
  | none => { m with accounts := m.accounts ++ [account] }
  | some i => { m with accounts := m.accounts.set i account }

/-- Embedding of `AccountManager.removeAccount`: drop the account id,
delete its usage record, clamp the cursor. -/
def removeAccount (m : AccountManager) (account : ManagedAccount) : AccountManager :=
  let accounts' := m.accounts.filter (fun a => a.id != account.id)
  let cursor' :=
    if accounts'.length ≤ m.cursor ∧ 0 < accounts'.length then accounts'.length - 1
    else if accounts'.length = 0 then 0
    else m.cursor
  { m with accounts := accounts', usage := usageErase m.usage account.id,
           cursor := cursor' }

/-- The decoded refresh-token bundle (`RefreshParts`) returned by the
external codec `decodeRefreshToken` (the codec lives outside this
module; its output is passed in explicitly). -/
structure RefreshParts where
  refreshToken : String
  profileArn : Option String
  clientId : Option String
deriving Repr, DecidableEq

/-- Embedding of `KiroAuthDetails` (the fields read by `updateFromAuth`). -/
structure KiroAuthDetails where
  refresh : String
  access : String
  expires : Nat
  email : Option String
deriving Repr, DecidableEq

/-- Embedding of `AccountManager.updateFromAuth`; `parts` is the result of
the external `decodeRefreshToken(auth.refresh)`. -/
def updateFromAuth (m : AccountManager) (account : ManagedAccount)
    (auth : KiroAuthDetails) (parts : RefreshParts) (now : Nat) : AccountManager :=
  match m.accounts.findIdx? (fun a => a.id == account.id) with
  | none => m
  | some i =>
      let acc := m.accounts.getD i dfltAccount
      let acc :=
        { acc with accessToken := auth.access, expiresAt := auth.expires,
                   lastUsed := some now,
                   realEmail :=
                     if truthyS auth.email && (auth.email != some "builder-id@aws.amazon.com") then
                       auth.email
                     else acc.realEmail }
      let acc :=
        { acc with refreshToken := parts.refreshToken,
                   profileArn := if truthyS parts.profileArn then parts.profileArn else acc.profileArn,
                   clientId := if truthyS parts.clientId then parts.clientId else acc.clientId }
      { m with accounts := m.accounts.set i acc }

/-- Embedding of `AccountManager.markRateLimited`. -/
def markRateLimited (m : AccountManager) (account : ManagedAccount)
    (retryAfterMs now : Nat) : AccountManager :=
  match m.accounts.findIdx? (fun a => a.id == account.id) with
  | none => m
  | some i =>
      let acc := m.accounts.getD i dfltAccount
      let acc := { acc with rateLimitResetTime := some (now + retryAfterMs) }
      { m with accounts := m.accounts.set i acc }

/-- Embedding of `AccountManager.markUnhealthy`. -/
def markUnhealthy (m : AccountManager) (account : ManagedAccount)
    (reason : String) (recoveryTime : Option Nat) : AccountManager :=
  match m.accounts.findIdx? (fun a => a.id == account.id) with
  | none => m
  | some i =>
      let acc := m.accounts.getD i dfltAccount
      let acc := { acc with isHealthy := false, unhealthyReason := some reason,
                            recoveryTime := recoveryTime }
      { m with accounts := m.accounts.set i acc }

/-- Embedding of the persisted `AccountMetadata` (the fields written by
`saveToDisk`; the volatile `lastUsed`, `usedCount`, `limitCount`,
`realEmail` are not persisted in the account document). -/
structure AccountMetadata where
  id : String
  email : String
  authMethod : String
  region : Option String
  profileArn : Option String
  clientId : Option String
  clientSecret : Option String
  refreshToken : String
  accessToken : String
  expiresAt : Nat
  rateLimitResetTime : Option Nat
  isHealthy : Bool
  unhealthyReason : Option String
  recoveryTime : Option Nat
deriving Repr, DecidableEq

/-- Embedding of the persisted account document (`AccountStorage`). -/
structure AccountStorage where
  version : Nat
  accounts : List AccountMetadata
  activeIndex : Int
deriving Repr, DecidableEq

/-- Embedding of the persisted usage document (`UsageStorage`). -/
structure UsageStorage where
  version : Nat
  usage : UsageMap
deriving Repr, DecidableEq

/-- `KIRO_CONSTANTS.DEFAULT_REGION` (defined in `constants.ts`, outside
the embedded modules; its exact value is irrelevant to every theorem
below — only that a falsy region is replaced by it). -/
def KIRO_DEFAULT_REGION : String := "us-east-1"

/-- The per-account mapping of `AccountManager.loadFromDisk`: rebuild a
`ManagedAccount` from persisted metadata, defaulting a falsy region
(`meta.region || KIRO_CONSTANTS.DEFAULT_REGION`); the volatile fields
start absent. -/
def metaToAccount (meta : AccountMetadata) : ManagedAccount :=
  { id := meta.id, email := meta.email, authMethod := meta.authMethod,
    region := some (if truthyS meta.region then meta.region.getD "" else KIRO_DEFAULT_REGION),
    profileArn := meta.profileArn, clientId := meta.clientId,
    clientSecret := meta.clientSecret, refreshToken := meta.refreshToken,
    accessToken := meta.accessToken, expiresAt := meta.expiresAt,
    lastUsed := none, usedCount := none, limitCount := none, realEmail := none,
    rateLimitResetTime := meta.rateLimitResetTime, isHealthy := meta.isHealthy,
    unhealthyReason := meta.unhealthyReason, recoveryTime := meta.recoveryTime }

/-- Embedding of `AccountManager.loadFromDisk`, with the two persisted
documents passed in place of the file reads. -/
def loadFromDisk (storage : AccountStorage) (usageStorage : UsageStorage)
    (strategy : AccountSelectionStrategy) : AccountManager :=
  mkAccountManager (storage.accounts.map metaToAccount) usageStorage.usage strategy

/-- The per-account mapping of `AccountManager.saveToDisk`. -/
def accountToMeta (a : ManagedAccount) : AccountMetadata :=
  { id := a.id, email := a.email, authMethod := a.authMethod, region := a.region,
    profileArn := a.profileArn, clientId := a.clientId, clientSecret := a.clientSecret,
    refreshToken := a.refreshToken, accessToken := a.accessToken,
    expiresAt := a.expiresAt, rateLimitResetTime := a.rateLimitResetTime,
    isHealthy := a.isHealthy, unhealthyReason := a.unhealthyReason,
    recoveryTime := a.recoveryTime }

/-- Embedding of `AccountManager.saveToDisk`, returning the two documents
it writes (the manager's own state is not mutated by a save). -/
def saveToDisk (m : AccountManager) : AccountStorage × UsageStorage :=
  ({ version := 1, accounts := m.accounts.map accountToMeta,
     activeIndex := (m.cursor : Int) },
   { version := 1, usage := m.usage })

/-- Observable effects of `storage.ts` in execution order. -/
inductive FsEvent where
  | access
  | mkdirEv
  | writeDefault
  | acquireLock
  | runFn
  | releaseLock
  | logError
  | logWarn
deriving Repr, DecidableEq

/-- Embedding of `ensureFileExists` as its event trace: probe the file
(`fs.access`); when the probe fails, create the directory and write the
default empty document. -/
def ensureFileExists (fileExists : Bool) : List FsEvent :=
  if fileExists then [.access] else [.access, .mkdirEv, .writeDefault]

/-- Embedding of `withFileLock` as a function of its environment
(whether the file exists, whether `lockfile.lock` succeeds, the outcome
of `fn`, whether `release` succeeds) returning the overall outcome and
the event trace:
``
await ensureFileExists(path, type);
let release = null;
try { release = await lockfile.lock(path, LOCK_OPTIONS); return await fn(); }
catch (error) { logger.error(...); throw error; }
finally { if (release) { try { await release(); } catch { logger.warn(...); } } }
``
-/
def withFileLock {α : Type} (fileExists lockOk : Bool)
    (fnResult : Except String α) (releaseOk : Bool) :
    Except String α × List FsEvent :=
  let pre := ensureFileExists fileExists
  if !lockOk then
    (Except.error "lock", pre ++ [.acquireLock, .logError])
  else
    let post := if releaseOk then [FsEvent.releaseLock] else [FsEvent.releaseLock, .logWarn]
    match fnResult with
    | .ok a => (Except.ok a, pre ++ [.acquireLock, .runFn] ++ post)
    | .error e => (Except.error e, pre ++ [.acquireLock, .runFn, .logError] ++ post)

/-- The public mutating operations of `AccountManager`, each carrying the
arguments of the corresponding method (`opUpdateFromAuth` carries the
decoded refresh-token bundle the external codec would produce from
`auth.refresh`; `opSave` leaves the in-memory state untouched). -/
inductive PoolOp where
  | opSelect (now : Nat)
  | opUpdateUsage (accountId : String) (usedCount limitCount : Nat)
      (realEmail : Option String) (now : Nat)
  | opAdd (account : ManagedAccount)
  | opRemove (account : ManagedAccount)
  | opUpdateFromAuth (account : ManagedAccount) (auth : KiroAuthDetails)
      (parts : RefreshParts) (now : Nat)
  | opMarkRateLimited (account : ManagedAccount) (retryAfterMs now : Nat)
  | opMarkUnhealthy (account : ManagedAccount) (reason : String)
      (recoveryTime : Option Nat)
  | opSave
deriving Repr, DecidableEq

/-- One public operation applied to the manager state. -/
def stepOp (m : AccountManager) : PoolOp → AccountManager
  | .opSelect now => (getCurrentOrNext m now).2
  | .opUpdateUsage accountId uc lc re now => updateUsage m accountId uc lc re now
  | .opAdd a => addAccount m a
  | .opRemove a => removeAccount m a
  | .opUpdateFromAuth acct auth parts now => updateFromAuth m acct auth parts now
  | .opMarkRateLimited acct ms now => markRateLimited m acct ms now
  | .opMarkUnhealthy acct reason rt => markUnhealthy m acct reason rt
  | .opSave => m

/-- A sequence of public operations applied in order. -/
def runOps (m : AccountManager) (ops : List PoolOp) : AccountManager :=
  ops.foldl stepOp m

/-- Every key of the usage map names an account currently in the pool. -/
def usageKeysBound (m : AccountManager) : Bool :=
  m.usage.all (fun p => m.accounts.any (fun a => a.id == p.1))

/-- An operation sequence is valid for a state when every `opUpdateUsage`
targets the id of an account present in the pool at the moment of the
call. -/
def validOps (m : AccountManager) : List PoolOp → Bool
  | [] => true
  | op :: rest =>
      (match op with
       | .opUpdateUsage accountId _ _ _ _ => m.accounts.any (fun a => a.id == accountId)
       | _ => true) && validOps (stepOp m op) rest

/-- Usage keys bounded by pool ids, as a proposition (the form the
inductive proofs use). -/
def UsageBoundP (m : AccountManager) : Prop :=
  ∀ p ∈ m.usage, p.1 ∈ m.accounts.map (fun a => a.id)

/-- `n` successive `getCurrentOrNext` calls at a fixed time, collecting
the returned accounts. -/
def runSelect (m : AccountManager) (now : Nat) : Nat → List (Option ManagedAccount) × AccountManager
  | 0 => ([], m)
  | Nat.succ n =>
      let r := getCurrentOrNext m now
      let rest := runSelect r.2 now n
      (r.1 :: rest.1, rest.2)

/-- No account of the pool is in the unhealthy-with-passed-recovery
state at `now` (so the availability filter performs no mutation). -/
def NoPendingRecovery (now : Nat) (l : List ManagedAccount) : Prop :=
  ∀ a ∈ l, a.isHealthy = true ∨ ¬(truthyN a.recoveryTime = true ∧ a.recoveryTime.getD 0 ≤ now)

/-! ## Specification-side definitions

Each definition below renders a sentence of the specification (or of a
claim derived from it) literally, to be compared with the embedding of
the source above. -/

/-- The availability predicate as the specification words it:
`(isHealthy ∨ now ≥ recoveryTime-when-set) ∧ (rateLimitResetTime unset ∨
now ≥ rateLimitResetTime)`. -/
def isAvailableClaimed (a : ManagedAccount) (now : Nat) : Bool :=
  (a.isHealthy || (a.recoveryTime.isSome && decide (a.recoveryTime.getD 0 ≤ now))) &&
    (a.rateLimitResetTime.isNone || decide (a.rateLimitResetTime.getD 0 ≤ now))

/-- The availability predicate as the code actually computes it, worded
as a nested conditional: a healthy account is gated only by the rate
limit; an unhealthy one only by its recovery time. -/
def isAvailableAmended (a : ManagedAccount) (now : Nat) : Bool :=
  if a.isHealthy then
    !truthyN a.rateLimitResetTime || decide (a.rateLimitResetTime.getD 0 ≤ now)
  else
    truthyN a.recoveryTime && decide (a.recoveryTime.getD 0 ≤ now)

/-- Quota classification as the claim words it: healthy when `usedCount`
and `limitCount` are BOTH absent-or-zero; otherwise exhausted iff
`usedCount ≥ limitCount`; otherwise warning iff
`round(usedCount / limitCount * 100) ≥ 80`. -/
def classifyClaimed (u l : Nat) : QuotaStatus :=
  if u = 0 ∧ l = 0 then .healthy
  else if l ≤ u then .exhausted
  else if 80 ≤ (200 * u + l) / (2 * l) then .warning
  else .healthy

/-- Quota classification as the code computes it, worded independently:
healthy when `usedCount` OR `limitCount` is absent-or-zero; otherwise
exhausted iff `usedCount ≥ limitCount`; otherwise warning iff
`round(usedCount / limitCount * 100) ≥ 80`. -/
def classifyAmended (u l : Option Nat) : QuotaStatus :=
  if u.getD 0 = 0 ∨ l.getD 0 = 0 then .healthy
  else if l.getD 0 ≤ u.getD 0 then .exhausted
  else if 80 ≤ (200 * u.getD 0 + l.getD 0) / (2 * l.getD 0) then .warning
  else .healthy

/-! ## Concrete fixtures -/

/-- An account that is unhealthy with its recovery time already passed at
`now = 10` while its rate-limit reset time is still in the future. -/
def recoveredButLimited : ManagedAccount :=
  { dfltAccount with id := "cex-avail", isHealthy := false,
                     unhealthyReason := some "expired",
                     recoveryTime := some 5, rateLimitResetTime := some 100 }

/-- An account with `usedCount = 5` and `limitCount = 0`. -/
def usedFiveLimitZero : ManagedAccount :=
  { dfltAccount with id := "cex-quota", usedCount := some 5, limitCount := some 0 }

/-- An account with a known-looking quota of `usedCount = 0`,
`limitCount = 10`. -/
def usedZeroLimitTen : ManagedAccount :=
  { dfltAccount with id := "known0", usedCount := some 0, limitCount := some 10 }

/-- An account with no quota counters at all. -/
def unknownQuotaAccount : ManagedAccount :=
  { dfltAccount with id := "unknown" }

/-- What an account must look like after a save/load round trip: every
credential/health field kept, `lastUsed` dropped (it is not persisted),
and the three usage-derived fields (`usedCount`, `limitCount`,
`realEmail`) holding exactly what the usage map records for its id
(absent when the map has no record). -/
def reloadExpected (usage : UsageMap) (a : ManagedAccount) : ManagedAccount :=
  match usageLookup usage a.id with
  | some meta =>
      { a with lastUsed := none, usedCount := some meta.usedCount,
               limitCount := some meta.limitCount, realEmail := meta.realEmail }
  | none => { a with lastUsed := none, usedCount := none, limitCount := none, realEmail := none }
/-- The account of the round-trip witness pool: it has a region, stale
in-memory counters and a `lastUsed` stamp. -/
def roundtripAccount : ManagedAccount :=
  { dfltAccount with id := "W", email := "w@example.com", region := some "ap-1",
                     usedCount := some 7, limitCount := some 8, realEmail := some "stale",
                     lastUsed := some 3, unhealthyReason := some "why", recoveryTime := some 44,
                     rateLimitResetTime := some 55, isHealthy := false }

/-- A concrete one-account pool for the round-trip witness; the usage map
holds counters that differ from the account's stale in-memory ones. -/
def roundtripPool : AccountManager :=
  { accounts := [roundtripAccount],
    usage := [("W", { usedCount := 4, limitCount := 9, realEmail := some "real", lastSync := 1 })],
    cursor := 0, strategy := .sticky }
/-- The three accounts of the lowest-usage scenario. -/
def lowPool0 : AccountManager :=
  { accounts :=
      [{ dfltAccount with id := "A", usedCount := some 5 },
       { dfltAccount with id := "B", usedCount := some 1 },
       { dfltAccount with id := "C", usedCount := some 3 }],
    usage := [], cursor := 0, strategy := .lowestUsage }

/-- State after the first call (at `t1 = 100`). -/
def lowPool1 : AccountManager := (getCurrentOrNext lowPool0 100).2

/-- State after the second call (at `t2 = 200`). -/
def lowPool2 : AccountManager := (getCurrentOrNext lowPool1 200).2
/-- The event trace of a fully successful `withFileLock` run on an
already-existing file. -/
def lockTraceOk : List FsEvent := (withFileLock (α := Nat) true true (Except.ok 0) true).2
/-- A pool loaded from documents holding one healthy, unlimited-health
account whose usage record says `usedCount = 10 ≥ limitCount = 5 > 0`. -/
def exhaustedPool : AccountManager :=
  loadFromDisk
    { version := 1,
      accounts :=
        [{ id := "X", email := "x@example.com", authMethod := "social",
           region := some "eu-west-1", profileArn := none, clientId := none,
           clientSecret := none, refreshToken := "rt", accessToken := "at",
           expiresAt := 0, rateLimitResetTime := none, isHealthy := true,
           unhealthyReason := none, recoveryTime := none }],
      activeIndex := -1 }
    { version := 1,
      usage := [("X", { usedCount := 10, limitCount := 5, realEmail := none, lastSync := 0 })] }
    .sticky

/-- An empty persisted account document. -/
def emptyAccountDoc : AccountStorage := { version := 1, accounts := [], activeIndex := -1 }

/-- An empty persisted usage document. -/
def emptyUsageDoc : UsageStorage := { version := 1, usage := [] }

/-- A one-account pool whose usage map is keyed by that account's id,
used to witness the usage-key invariant. -/
def invariantPool : AccountManager :=
  { accounts := [{ dfltAccount with id := "A" }],
    usage := [("A", { usedCount := 1, limitCount := 2, realEmail := none, lastSync := 0 })],
    cursor := 0, strategy := .sticky }

/-- A mixed operation sequence for the usage-key invariant witness:
upsert a second account, select once, sync usage for the new account,
remove the first account, save. -/
def invariantOps : List PoolOp :=
  [.opAdd { dfltAccount with id := "B" },
   .opSelect 5,
   .opUpdateUsage "B" 3 4 none 6,
   .opRemove { dfltAccount with id := "A" },
   .opSave]

/-- A round-robin pool with available accounts at positions 0 and 2
(position 1 holds an unhealthy account with no recovery time) and a
cursor beyond the available count. -/
def roundRobinPool : AccountManager :=
  { accounts :=
      [{ dfltAccount with id := "P" },
       { dfltAccount with id := "D", isHealthy := false },
       { dfltAccount with id := "Q" }],
    usage := [], cursor := 5, strategy := .roundRobin }

/-! ## Helper lemmas -/

theorem notDecideLt (x y : Nat) : (!decide (x < y)) = decide (y ≤ x) := by
  by_cases h : x < y
  · have h2 : ¬ (y ≤ x) := by omega
    simp [h, h2]
  · have h2 : y ≤ x := by omega
    simp [h, h2]

theorem availability_fst (a : ManagedAccount) (now : Nat) :
    (availabilityStep now a).1 = isAccountAvailable a now := by
  unfold availabilityStep isAccountAvailable
  cases h : a.isHealthy <;> simp [h] <;> split <;> simp_all
  cases h3 : truthyN a.rateLimitResetTime <;> simp_all

theorem setSame {α : Type} (l : List α) (p : Nat) (y : α) (h : l[p]? = some y) :
    l.set p y = l := by
  induction l generalizing p with
  | nil => rfl
  | cons x xs ih =>
    cases p with
    | zero =>
      simp at h
      simp [h]
    | succ n =>
      simp at h
      simp [ih n h]

theorem getElem?_getD {α : Type} (l : List α) (i : Nat) (d : α) (h : i < l.length) :
    l[i]? = some (l.getD i d) := by
  rw [List.getD_eq_getElem?_getD]
  rw [List.getElem?_eq_getElem h]
  rfl

theorem id_availabilityStep (now : Nat) (a : ManagedAccount) :
    ((availabilityStep now a).2).id = a.id := by
  unfold availabilityStep
  split <;> split <;> rfl

theorem ids_recoverAll (now : Nat) (l : List ManagedAccount) :
    (recoverAll now l).map (fun a => a.id) = l.map (fun a => a.id) := by
  unfold recoverAll
  rw [List.map_map, List.map_map]
  apply List.map_congr_left
  intro a _
  simpa using id_availabilityStep now a

theorem ids_set_field (l : List ManagedAccount) (i : Nat) (acc : ManagedAccount)
    (hid : acc.id = (l.getD i dfltAccount).id) :
    (l.set i acc).map (fun a => a.id) = l.map (fun a => a.id) := by
  rcases Nat.lt_or_ge i l.length with hi | hi
  · rw [List.map_set, hid]
    apply setSame
    rw [List.getElem?_map, getElem?_getD l i dfltAccount hi]
    rfl
  · rw [List.set_eq_of_length_le hi]

theorem selectAt_keeps (now : Nat) (m : AccountManager) (accounts1 : List ManagedAccount)
    (p c : Nat) :
    ((selectAt now m accounts1 p c).2).usage = m.usage ∧
      ((selectAt now m accounts1 p c).2).accounts.map (fun a => a.id)
        = accounts1.map (fun a => a.id) := by
  unfold selectAt
  split
  case _ a h =>
    refine ⟨rfl, ?_⟩
    apply ids_set_field
    rw [List.get?_eq_getElem?] at h
    rw [List.getD_eq_getElem?_getD, h]
    rfl
  case _ => exact ⟨rfl, rfl⟩

theorem stickyFallback_keeps (now : Nat) (m : AccountManager)
    (accounts1 : List ManagedAccount) (availPos : List Nat) :
    ((stickyFallback now m accounts1 availPos).2).usage = m.usage ∧
      ((stickyFallback now m accounts1 availPos).2).accounts.map (fun a => a.id)
        = accounts1.map (fun a => a.id) := by
  unfold stickyFallback
  split
  · exact selectAt_keeps ..
  · exact ⟨rfl, rfl⟩

theorem getCurrentOrNext_keeps (m : AccountManager) (now : Nat) :
    ((getCurrentOrNext m now).2).usage = m.usage ∧
      ((getCurrentOrNext m now).2).accounts.map (fun a => a.id)
        = m.accounts.map (fun a => a.id) := by
  simp only [getCurrentOrNext]
  split
  · exact ⟨rfl, ids_recoverAll now m.accounts⟩
  · split
    · split
      · split
        · exact (selectAt_keeps ..).imp id (fun h => h.trans (ids_recoverAll ..))
        · exact (stickyFallback_keeps ..).imp id (fun h => h.trans (ids_recoverAll ..))
      · exact (stickyFallback_keeps ..).imp id (fun h => h.trans (ids_recoverAll ..))
    · exact (selectAt_keeps ..).imp id (fun h => h.trans (ids_recoverAll ..))
    · split
      · exact (selectAt_keeps ..).imp id (fun h => h.trans (ids_recoverAll ..))
      · exact ⟨rfl, ids_recoverAll ..⟩

theorem usageKeysBound_iff (m : AccountManager) :
    usageKeysBound m = true ↔ UsageBoundP m := by
  simp [usageKeysBound, UsageBoundP, List.all_eq_true, List.any_eq_true, List.mem_map,
    beq_iff_eq]

theorem usageInsert_mem (u : UsageMap) (k : String) (v : UsageMetadata)
    (p : String × UsageMetadata) (h : p ∈ usageInsert u k v) :
    p.1 = k ∨ p ∈ u := by
  unfold usageInsert at h
  split at h
  · rcases List.mem_map.mp h with ⟨q, hq, rfl⟩
    split
    · exact Or.inl rfl
    · exact Or.inr hq
  · rcases List.mem_append.mp h with hq | hq
    · exact Or.inr hq
    · simp at hq
      exact Or.inl (by rw [hq])

theorem findIdx?_getD {l : List ManagedAccount} {pr : ManagedAccount → Bool} {i : Nat}
    (h : l.findIdx? pr = some i) :
    i < l.length ∧ pr (l.getD i dfltAccount) = true := by
  obtain ⟨hlt, hp, _⟩ := List.findIdx?_eq_some_iff_getElem.mp h
  refine ⟨hlt, ?_⟩
  rw [List.getD_eq_getElem l _ hlt]
  exact hp

theorem ids_updateUsage (m : AccountManager) (accountId : String) (uc lc : Nat)
    (re : Option String) (now : Nat) :
    (updateUsage m accountId uc lc re now).accounts.map (fun a => a.id)
      = m.accounts.map (fun a => a.id) := by
  unfold updateUsage
  simp only
  split
  · exact ids_set_field _ _ _ rfl
  · rfl

theorem ids_addAccount_mono (m : AccountManager) (acct : ManagedAccount) (s : String)
    (hs : s ∈ m.accounts.map (fun a => a.id)) :
    s ∈ (addAccount m acct).accounts.map (fun a => a.id) := by
  unfold addAccount
  split
  · simp only [List.map_append]
    exact List.mem_append.mpr (Or.inl hs)
  case _ i hi =>
    have hpred := (findIdx?_getD hi).2
    simp only [beq_iff_eq] at hpred
    rw [ids_set_field _ _ _ hpred.symm]
    exact hs

theorem ids_updateFromAuth (m : AccountManager) (acct : ManagedAccount)
    (auth : KiroAuthDetails) (parts : RefreshParts) (now : Nat) :
    (updateFromAuth m acct auth parts now).accounts.map (fun a => a.id)
      = m.accounts.map (fun a => a.id) := by
  unfold updateFromAuth
  split
  · rfl
  · exact ids_set_field _ _ _ rfl

theorem ids_markRateLimited (m : AccountManager) (acct : ManagedAccount) (ms now : Nat) :
    (markRateLimited m acct ms now).accounts.map (fun a => a.id)
      = m.accounts.map (fun a => a.id) := by
  unfold markRateLimited
  split
  · rfl
  · exact ids_set_field _ _ _ rfl

theorem ids_markUnhealthy (m : AccountManager) (acct : ManagedAccount) (reason : String)
    (rt : Option Nat) :
    (markUnhealthy m acct reason rt).accounts.map (fun a => a.id)
      = m.accounts.map (fun a => a.id) := by
  unfold markUnhealthy
  split
  · rfl
  · exact ids_set_field _ _ _ rfl

theorem usage_addAccount (m : AccountManager) (acct : ManagedAccount) :
    (addAccount m acct).usage = m.usage := by
  unfold addAccount
  split <;> rfl

theorem usage_updateFromAuth (m : AccountManager) (acct : ManagedAccount)
    (auth : KiroAuthDetails) (parts : RefreshParts) (now : Nat) :
    (updateFromAuth m acct auth parts now).usage = m.usage := by
  unfold updateFromAuth
  split <;> rfl

theorem usage_markRateLimited (m : AccountManager) (acct : ManagedAccount) (ms now : Nat) :
    (markRateLimited m acct ms now).usage = m.usage := by
  unfold markRateLimited
  split <;> rfl

theorem usage_markUnhealthy (m : AccountManager) (acct : ManagedAccount) (reason : String)
    (rt : Option Nat) :
    (markUnhealthy m acct reason rt).usage = m.usage := by
  unfold markUnhealthy
  split <;> rfl

theorem stepOp_preserves (m : AccountManager) (op : PoolOp)
    (hv : (match op with
           | .opUpdateUsage accountId _ _ _ _ => m.accounts.any (fun a => a.id == accountId)
           | _ => true) = true)
    (h : UsageBoundP m) : UsageBoundP (stepOp m op) := by
  cases op with
  | opSelect now =>
    intro p hp
    show p.1 ∈ ((getCurrentOrNext m now).2).accounts.map (fun a => a.id)
    rw [(getCurrentOrNext_keeps m now).2]
    exact h p ((getCurrentOrNext_keeps m now).1 ▸ hp)
  | opUpdateUsage accountId uc lc re now =>
    intro p hp
    show p.1 ∈ (updateUsage m accountId uc lc re now).accounts.map (fun a => a.id)
    rw [ids_updateUsage]
    have hp' : p ∈ usageInsert m.usage accountId
        { usedCount := uc, limitCount := lc, realEmail := re, lastSync := now } := hp
    rcases usageInsert_mem _ _ _ _ hp' with hk | hp2
    · rcases List.any_eq_true.mp hv with ⟨a, ha, haid⟩
      rw [hk]
      exact List.mem_map.mpr ⟨a, ha, beq_iff_eq.mp haid⟩
    · exact h p hp2
  | opAdd acct =>
    intro p hp
    have hp' : p ∈ (addAccount m acct).usage := hp
    rw [usage_addAccount] at hp'
    exact ids_addAccount_mono m acct p.1 (h p hp')
  | opRemove acct =>
    intro p hp
    have hp2 := List.mem_filter.mp (show p ∈ m.usage.filter (fun q => q.1 != acct.id) from hp)
    rcases List.mem_map.mp (h p hp2.1) with ⟨b, hb, hbid⟩
    show p.1 ∈ (m.accounts.filter (fun a => a.id != acct.id)).map (fun a => a.id)
    refine List.mem_map.mpr ⟨b, List.mem_filter.mpr ⟨hb, ?_⟩, hbid⟩
    rw [hbid]
    exact hp2.2
  | opUpdateFromAuth acct auth parts now =>
    intro p hp
    show p.1 ∈ (updateFromAuth m acct auth parts now).accounts.map (fun a => a.id)
    rw [ids_updateFromAuth]
    have hp' : p ∈ (updateFromAuth m acct auth parts now).usage := hp
    rw [usage_updateFromAuth] at hp'
    exact h p hp'
  | opMarkRateLimited acct ms now =>
    intro p hp
    show p.1 ∈ (markRateLimited m acct ms now).accounts.map (fun a => a.id)
    rw [ids_markRateLimited]
    have hp' : p ∈ (markRateLimited m acct ms now).usage := hp
    rw [usage_markRateLimited] at hp'
    exact h p hp'
  | opMarkUnhealthy acct reason rt =>
    intro p hp
    show p.1 ∈ (markUnhealthy m acct reason rt).accounts.map (fun a => a.id)
    rw [ids_markUnhealthy]
    have hp' : p ∈ (markUnhealthy m acct reason rt).usage := hp
    rw [usage_markUnhealthy] at hp'
    exact h p hp'
  | opSave => exact h

theorem runOps_preserves (ops : List PoolOp) : ∀ (m : AccountManager),
    usageKeysBound m = true → validOps m ops = true →
    usageKeysBound (runOps m ops) = true := by
  induction ops with
  | nil => intro m h _; exact h
  | cons op rest ih =>
    intro m h hv
    rcases Bool.and_eq_true_iff.mp hv with ⟨hv1, hv2⟩
    exact ih (stepOp m op) ((usageKeysBound_iff _).mpr
      (stepOp_preserves m op hv1 ((usageKeysBound_iff m).mp h))) hv2

theorem step_snd_of_stable (now : Nat) (a : ManagedAccount)
    (h : a.isHealthy = true ∨ ¬(truthyN a.recoveryTime = true ∧ a.recoveryTime.getD 0 ≤ now)) :
    (availabilityStep now a).2 = a := by
  unfold availabilityStep
  rcases hh : a.isHealthy with _ | _
  · rcases h with h | h
    · rw [hh] at h
      cases h
    · simp [hh]
      rw [if_neg h]
  · simp [hh]
    split <;> rfl

theorem recoverAll_stable (now : Nat) (l : List ManagedAccount) :
    NoPendingRecovery now (recoverAll now l) := by
  intro a ha
  unfold recoverAll at ha
  rw [List.map_map] at ha
  rcases List.mem_map.mp ha with ⟨b, _, rfl⟩
  simp only [Function.comp]
  rcases hh : b.isHealthy with _ | _
  · by_cases hc : truthyN b.recoveryTime = true ∧ b.recoveryTime.getD 0 ≤ now
    · left
      simp [availabilityStep, hh, hc]
    · right
      rw [step_snd_of_stable now b (Or.inr hc)]
      exact hc
  · left
    rw [step_snd_of_stable now b (Or.inl hh)]
    exact hh

theorem recoverAll_eq_of_stable (now : Nat) (l : List ManagedAccount)
    (h : NoPendingRecovery now l) : recoverAll now l = l := by
  unfold recoverAll
  rw [List.map_map]
  have hpt : ∀ a ∈ l, (Prod.snd ∘ availabilityStep now) a = id a := by
    intro a ha
    simpa using step_snd_of_stable now a (h a ha)
  rw [List.map_congr_left hpt, List.map_id]
theorem bump_fst (now now2 : Nat) (a : ManagedAccount) :
    (availabilityStep now (bumpAccount now2 a)).1 = (availabilityStep now a).1 := by
  rw [availability_fst, availability_fst]
  unfold bumpAccount isAccountAvailable
  rfl

theorem availIdx_mem_lt (now : Nat) (l : List ManagedAccount) (p : Nat)
    (h : p ∈ availIdx now l) : p < l.length := by
  unfold availIdx at h
  have := (List.mem_filter.mp h).1
  exact List.mem_range.mp this

theorem availIdx_nodup (now : Nat) (l : List ManagedAccount) : (availIdx now l).Nodup :=
  List.Nodup.filter _ (List.nodup_range _)

theorem availIdx_set_invariant (now : Nat) (l : List ManagedAccount) (p : Nat)
    (x : ManagedAccount)
    (hfst : (availabilityStep now x).1 = (availabilityStep now (l.getD p dfltAccount)).1) :
    availIdx now (l.set p x) = availIdx now l := by
  unfold availIdx
  rw [List.length_set]
  apply List.filter_congr
  intro i hi
  have hilt : i < l.length := List.mem_range.mp hi
  by_cases hip : p = i
  · subst hip
    have : (l.set p x).getD p dfltAccount = x := by
      rw [List.getD_eq_getElem?_getD, List.getElem?_set_self (by omega), Option.getD_some]
    rw [this, hfst]
  · have : (l.set p x).getD i dfltAccount = l.getD i dfltAccount := by
      rw [List.getD_eq_getElem?_getD, List.getElem?_set_ne hip, ← List.getD_eq_getElem?_getD]
    rw [this]

theorem noPending_set_bump (now now2 : Nat) (l : List ManagedAccount) (p : Nat)
    (h : NoPendingRecovery now l) :
    NoPendingRecovery now (l.set p (bumpAccount now2 (l.getD p dfltAccount))) := by
  intro a ha
  rcases List.mem_or_eq_of_mem_set ha with ha2 | rfl
  · exact h a ha2
  · rcases Nat.lt_or_ge p l.length with hp | hp
    · have hmem : l.getD p dfltAccount ∈ l := by
        rw [List.getD_eq_getElem l dfltAccount hp]
        exact List.getElem_mem ..
      have := h _ hmem
      simpa [bumpAccount] using this
    · simp [List.getD_eq_getElem?_getD, List.getElem?_eq_none (by omega : l.length ≤ p)]
      simp [bumpAccount, dfltAccount, truthyN]
theorem getD_set_ne {α : Type} (l : List α) (p q : Nat) (x d : α) (h : p ≠ q) :
    (l.set p x).getD q d = l.getD q d := by
  rw [List.getD_eq_getElem?_getD, List.getElem?_set_ne h, ← List.getD_eq_getElem?_getD]

theorem residue_ne (c t N : Nat) (h0 : 0 < t) (hN : t < N) : (c + t) % N ≠ c % N := by
  intro h
  have h2 : t ≡ 0 [MOD N] := Nat.ModEq.add_left_cancel' c (by simpa using h)
  have h3 : t % N = 0 % N := h2
  have h4 := Nat.mod_eq_of_lt hN
  simp at h3
  omega

theorem nodup_getD_ne (V : List Nat) (hnd : V.Nodup) (i j : Nat)
    (hi : i < V.length) (hj : j < V.length) (hij : i ≠ j) :
    V.getD i 0 ≠ V.getD j 0 := by
  rw [List.getD_eq_getElem _ _ hi, List.getD_eq_getElem _ _ hj]
  intro heq
  exact hij (hnd.getElem_inj_iff.mp heq)

theorem rrVisited_perm (c N : Nat) (h : 0 < N) :
    ((List.range N).map (fun i => (c + i) % N)).Perm (List.range N) := by
  have hnd : ((List.range N).map (fun i => (c + i) % N)).Nodup := by
    refine List.Nodup.map_on ?_ (List.nodup_range N)
    intro x hx y hy hxy
    have hx' := List.mem_range.mp hx
    have hy' := List.mem_range.mp hy
    have h2 : x ≡ y [MOD N] := Nat.ModEq.add_left_cancel' c hxy
    have h3 : x % N = y % N := h2
    rwa [Nat.mod_eq_of_lt hx', Nat.mod_eq_of_lt hy'] at h3
  have hsub : ((List.range N).map (fun i => (c + i) % N)) ⊆ List.range N := by
    intro x hx
    rcases List.mem_map.mp hx with ⟨i, _, rfl⟩
    exact List.mem_range.mpr (Nat.mod_lt _ h)
  refine (hnd.subperm hsub).perm_of_length_le ?_
  simp
theorem rr_step (m : AccountManager) (now : Nat)
    (hs : m.strategy = .roundRobin)
    (hnp : NoPendingRecovery now m.accounts)
    (hne : availIdx now m.accounts ≠ []) :
    getCurrentOrNext m now =
      (some (bumpAccount now (m.accounts.getD
          ((availIdx now m.accounts).getD (m.cursor % (availIdx now m.accounts).length) 0)
          dfltAccount)),
       { m with
         accounts := m.accounts.set
           ((availIdx now m.accounts).getD (m.cursor % (availIdx now m.accounts).length) 0)
           (bumpAccount now (m.accounts.getD
             ((availIdx now m.accounts).getD (m.cursor % (availIdx now m.accounts).length) 0)
             dfltAccount)),
         cursor := (m.cursor + 1) % (availIdx now m.accounts).length }) := by
  have hlen : 0 < (availIdx now m.accounts).length := List.length_pos.mpr hne
  have hmem : (availIdx now m.accounts).getD (m.cursor % (availIdx now m.accounts).length) 0
      ∈ availIdx now m.accounts := by
    rw [List.getD_eq_getElem _ _ (Nat.mod_lt _ hlen)]
    exact List.getElem_mem ..
  have hplt := availIdx_mem_lt now m.accounts _ hmem
  simp only [getCurrentOrNext]
  rw [recoverAll_eq_of_stable now _ hnp, hs]
  rw [if_neg (by simpa using hne)]
  show selectAt now m m.accounts _ _ = _
  unfold selectAt
  rw [show m.accounts.get?
        ((availIdx now m.accounts).getD (m.cursor % (availIdx now m.accounts).length) 0)
      = some (m.accounts.getD
        ((availIdx now m.accounts).getD (m.cursor % (availIdx now m.accounts).length) 0)
        dfltAccount) from by
    rw [List.get?_eq_getElem?]
    exact getElem?_getD _ _ _ hplt]
  simp [hs]
theorem rr_run (now : Nat) : ∀ (k : Nat) (m : AccountManager),
    m.strategy = .roundRobin →
    NoPendingRecovery now m.accounts →
    ∀ (V : List Nat), availIdx now m.accounts = V →
    k ≤ V.length → 0 < V.length →
    ∀ i, i < k → (runSelect m now k).1.get? i =
      some (some (bumpAccount now
        (m.accounts.getD (V.getD ((m.cursor + i) % V.length) 0) dfltAccount))) := by
  intro k
  induction k with
  | zero =>
    intro m _ _ V _ _ _ i hi
    omega
  | succ n ih =>
    intro m hs hnp V hV hk hpos i hi
    have hne : availIdx now m.accounts ≠ [] := by
      rw [hV]
      exact List.ne_nil_of_length_pos hpos
    have hstep := rr_step m now hs hnp hne
    have hV2 : (availIdx now m.accounts).length = V.length := by rw [hV]
    cases i with
    | zero =>
      show ((getCurrentOrNext m now).1 :: (runSelect (getCurrentOrNext m now).2 now n).1).get? 0 = _
      rw [hstep]
      simp [hV]
    | succ j =>
      have hj : j < n := by omega
      have hshow : (runSelect m now (n + 1)).1.get? (j + 1)
          = (runSelect (getCurrentOrNext m now).2 now n).1.get? j := rfl
      rw [hshow, hstep]
      -- the post-step manager
      have hs' : ({ m with
          accounts := m.accounts.set
            ((availIdx now m.accounts).getD (m.cursor % (availIdx now m.accounts).length) 0)
            (bumpAccount now (m.accounts.getD
              ((availIdx now m.accounts).getD (m.cursor % (availIdx now m.accounts).length) 0)
              dfltAccount)),
          cursor := (m.cursor + 1) % (availIdx now m.accounts).length } : AccountManager).strategy
          = AccountSelectionStrategy.roundRobin := hs
      have hnp' := noPending_set_bump now now m.accounts
        ((availIdx now m.accounts).getD (m.cursor % (availIdx now m.accounts).length) 0) hnp
      have hVi : availIdx now (m.accounts.set
          ((availIdx now m.accounts).getD (m.cursor % (availIdx now m.accounts).length) 0)
          (bumpAccount now (m.accounts.getD
            ((availIdx now m.accounts).getD (m.cursor % (availIdx now m.accounts).length) 0)
            dfltAccount))) = V := by
        rw [availIdx_set_invariant now m.accounts _ _ (bump_fst now now _), hV]
      have := ih _ hs' hnp' V hVi (by omega) hpos j hj
      rw [this]
      -- cursor arithmetic and position distinctness
      have hcur : (((m.cursor + 1) % (availIdx now m.accounts).length + j) % V.length)
          = (m.cursor + (1 + j)) % V.length := by
        rw [hV2, Nat.mod_add_mod]
        ring_nf
      simp only [hcur]
      -- the position selected at step j+1 differs from the position bumped at step 0
      have hner : (m.cursor + (1 + j)) % V.length ≠ m.cursor % V.length :=
        residue_ne m.cursor (1 + j) V.length (by omega) (by omega)
      have hpos_ne : V.getD ((m.cursor + (1 + j)) % V.length) 0
          ≠ V.getD (m.cursor % V.length) 0 :=
        nodup_getD_ne V (hV ▸ availIdx_nodup now m.accounts) _ _
          (Nat.mod_lt _ hpos) (Nat.mod_lt _ hpos) hner
      have hgd : (m.accounts.set
            ((availIdx now m.accounts).getD (m.cursor % (availIdx now m.accounts).length) 0)
            (bumpAccount now (m.accounts.getD
              ((availIdx now m.accounts).getD (m.cursor % (availIdx now m.accounts).length) 0)
              dfltAccount))).getD (V.getD ((m.cursor + (1 + j)) % V.length) 0) dfltAccount
          = m.accounts.getD (V.getD ((m.cursor + (1 + j)) % V.length) 0) dfltAccount := by
        apply getD_set_ne
        rw [hV]
        exact hpos_ne.symm
      rw [hgd]
      have harith : m.cursor + (1 + j) = m.cursor + (j + 1) := by ring
      rw [harith]
theorem getCurrentOrNext_recoverAll (m : AccountManager) (now : Nat)
    (hStable : availIdx now (recoverAll now m.accounts) = availIdx now m.accounts) :
    getCurrentOrNext m now
      = getCurrentOrNext { m with accounts := recoverAll now m.accounts } now := by
  simp only [getCurrentOrNext]
  rw [recoverAll_eq_of_stable now _ (recoverAll_stable now m.accounts), hStable]
  rfl

theorem runSelect_congr_first (m m2 : AccountManager) (now k : Nat)
    (h : getCurrentOrNext m now = getCurrentOrNext m2 now) :
    runSelect m now (k + 1) = runSelect m2 now (k + 1) := by
  show ((getCurrentOrNext m now).1 :: (runSelect (getCurrentOrNext m now).2 now k).1,
        (runSelect (getCurrentOrNext m now).2 now k).2) = _
  rw [h]
  rfl

/-! ## Claims about availability (C1, C7) -/

/-- Claim C1, counterexample: for the account `recoveredButLimited`
(unhealthy, `recoveryTime = 5` passed, `rateLimitResetTime = 100` in the
future) at `now = 10`, the code's availability predicate returns `true`,
while the claimed formula — which requires `now ≥ rateLimitResetTime`
in every case — returns `false`.  The claim's "in particular an
unhealthy account whose recoveryTime has passed but whose
rateLimitResetTime is still in the future is NOT available" is therefore
false of the code. -/
theorem claim1_counterexample :
    isAccountAvailable recoveredButLimited 10 = true ∧
      isAvailableClaimed recoveredButLimited 10 = false := by
  decide

/-- Claim C1, amended: the availability predicate checks the rate limit
only for healthy accounts; an unhealthy account is available exactly when
its recovery time is set (nonzero) and has passed, regardless of any
rate limit.  The keep-decision of the `getCurrentOrNext` filter agrees
with the standalone predicate. -/
theorem claim1_amended (a : ManagedAccount) (now : Nat) :
    isAccountAvailable a now = isAvailableAmended a now ∧
      (availabilityStep now a).1 = isAccountAvailable a now := by
  constructor
  · unfold isAccountAvailable isAvailableAmended
    cases h : a.isHealthy <;> simp [h]
    rcases h2 : truthyN a.rateLimitResetTime <;> simp [notDecideLt]
  · exact availability_fst a now

/-- Claim C7, counterexample: evaluating the standalone
`isAccountAvailable` on an unhealthy account whose recovery time has
passed returns `true` but leaves the account entirely unchanged — its
body contains no assignment — so after the check `isHealthy` is still
`false` and `unhealthyReason`/`recoveryTime` are still set, contrary to
the claim that the standalone predicate performs the recovery
transition. -/
theorem claim7_counterexample :
    evalIsAccountAvailable recoveredButLimited 10 = (true, recoveredButLimited) ∧
      recoveredButLimited.isHealthy = false ∧
      recoveredButLimited.unhealthyReason = some "expired" ∧
      recoveredButLimited.recoveryTime = some 5 := by
  decide

/-- Claim C7, amended: the recovery side effect lives in the filter
callback inside `getCurrentOrNext`, not in the standalone predicate: for
every unhealthy account with a nonzero recovery time that has passed,
the filter keeps the account and sets `isHealthy := true` and clears
`unhealthyReason` and `recoveryTime`, leaving all other fields unchanged,
while the standalone `isAccountAvailable` returns `true` there and leaves
the account unchanged. -/
theorem claim7_amended (a : ManagedAccount) (now : Nat)
    (h1 : a.isHealthy = false) (h2 : truthyN a.recoveryTime = true)
    (h3 : a.recoveryTime.getD 0 ≤ now) :
    availabilityStep now a =
      (true, { a with isHealthy := true, unhealthyReason := none, recoveryTime := none }) ∧
      evalIsAccountAvailable a now = (true, a) := by
  constructor
  · unfold availabilityStep
    simp [h1, h2, h3]
  · unfold evalIsAccountAvailable isAccountAvailable
    simp [h1, h2, h3]

/-- Claim C7, witness for the amended theorem at the concrete account
`recoveredButLimited` and `now = 10`. -/
theorem claim7_witness :
    recoveredButLimited.isHealthy = false ∧
      truthyN recoveredButLimited.recoveryTime = true ∧
      recoveredButLimited.recoveryTime.getD 0 ≤ 10 ∧
      (availabilityStep 10 recoveredButLimited =
        (true, { recoveredButLimited with isHealthy := true, unhealthyReason := none, recoveryTime := none }) ∧
        evalIsAccountAvailable recoveredButLimited 10 = (true, recoveredButLimited)) :=
  ⟨by decide, by decide, by decide,
    claim7_amended recoveredButLimited 10 (by decide) (by decide) (by decide)⟩

/-! ## Claims about quota classification and ranking (C3, C8) -/

/-- Claim C3, counterexample: for an account with `usedCount = 5` and
`limitCount = 0`, the claim's rule (healthy only when BOTH counters are
absent-or-zero, otherwise exhausted iff `used ≥ limit`) classifies it as
exhausted, but the code returns healthy, because `checkQuotaStatus`
short-circuits to healthy as soon as EITHER counter is absent or zero. -/
theorem claim3_counterexample :
    checkQuotaStatus usedFiveLimitZero = .healthy ∧
      classifyClaimed 5 0 = .exhausted := by
  decide

/-- Claim C3, amended: quota classification returns healthy when
`usedCount` OR `limitCount` is absent or zero; otherwise exhausted iff
`usedCount ≥ limitCount`; otherwise warning iff
`round(usedCount / limitCount * 100) ≥ 80`, else healthy.  Concretely
`used = 80, limit = 100` is warning and `used = 100, limit = 100` is
exhausted. -/
theorem claim3_amended :
    (∀ (a : ManagedAccount), checkQuotaStatus a = classifyAmended a.usedCount a.limitCount) ∧
      checkQuotaStatus { dfltAccount with usedCount := some 80, limitCount := some 100 } = .warning ∧
      checkQuotaStatus { dfltAccount with usedCount := some 100, limitCount := some 100 } = .exhausted := by
  refine ⟨?_, by decide, by decide⟩
  intro a
  unfold checkQuotaStatus classifyAmended isQuotaExhausted calculateUsagePercentage truthyN
  rcases a.usedCount with _ | u <;> rcases a.limitCount with _ | l <;> simp
  by_cases hu : u = 0 <;> by_cases hl : l = 0 <;> simp [hu, hl]

/-- Claim C8, counterexample: the account `usedZeroLimitTen` has both
counters present (`usedCount = 0`, `limitCount = 10`), yet the code
computes its remaining quota as infinite (`none`) because `usedCount = 0`
is falsy — absence-or-zero is treated as "unknown quota".  Consequently
ranking it against a genuinely unknown-quota account is a tie and the
stable sort keeps it AHEAD of the unknown-quota account, where the claim
requires the unknown-quota account to rank strictly ahead of any
known-quota account and `usedZeroLimitTen` to rank by its finite
remaining value 10. -/
theorem claim8_counterexample :
    getRemainingQuota usedZeroLimitTen = none ∧
      sortAccountsByQuota [usedZeroLimitTen, unknownQuotaAccount] =
        [usedZeroLimitTen, unknownQuotaAccount] := by
  decide

/-- Claim C8, amended: `sortAccountsByQuota` stably permutes its input
into descending order of remaining quota, where remaining quota is
infinite (`none`) exactly when `usedCount` or `limitCount` is absent OR
zero, and otherwise equals `max(0, limitCount − usedCount)`; ties
(including between two "infinite" accounts) keep the original order. -/
theorem claim8_amended :
    (∀ (l : List ManagedAccount), (sortAccountsByQuota l).Perm l) ∧
      (∀ (l : List ManagedAccount), List.Sorted QuotaBefore (sortAccountsByQuota l)) ∧
      (∀ (a : ManagedAccount), getRemainingQuota a =
        if a.usedCount.getD 0 = 0 ∨ a.limitCount.getD 0 = 0 then none
        else some (max 0 (a.limitCount.getD 0 - a.usedCount.getD 0))) := by
  refine ⟨?_, ?_, ?_⟩
  · intro l
    exact List.perm_insertionSort QuotaBefore l
  · intro l
    exact List.sorted_insertionSort QuotaBefore l
  · intro a
    unfold getRemainingQuota getRemainingCount truthyN
    rcases a.usedCount with _ | u <;> rcases a.limitCount with _ | l <;> simp <;>
      by_cases hu : u = 0 <;> by_cases hl : l = 0 <;> simp [hu, hl]

/-! ## Claim C2: save/load round trip -/

/-- Claim C2: for every pool whose accounts all have a (truthy) region,
`saveToDisk` followed by `loadFromDisk` yields a pool whose accounts have
identical id, email, authMethod, region, profileArn, clientId,
clientSecret, refreshToken, accessToken, expiresAt, rateLimitResetTime,
isHealthy, unhealthyReason and recoveryTime, and whose usedCount,
limitCount and realEmail are exactly the values held in the usage map at
the moment of the save; the usage map itself round-trips unchanged. -/
theorem claim2_roundtrip (m : AccountManager)
    (h : ∀ a ∈ m.accounts, truthyS a.region = true) :
    (loadFromDisk (saveToDisk m).1 (saveToDisk m).2 m.strategy).accounts
        = m.accounts.map (reloadExpected m.usage)
    ∧ (loadFromDisk (saveToDisk m).1 (saveToDisk m).2 m.strategy).usage = m.usage := by
  constructor
  · show syncUsageIntoAccounts ((m.accounts.map accountToMeta).map metaToAccount) m.usage = _
    unfold syncUsageIntoAccounts
    rw [List.map_map, List.map_map]
    apply List.map_congr_left
    intro a ha
    have hr := h a ha
    rcases a with ⟨aid, aemail, aauth, argn, aarn, acid, acs, arf, aac, aex, alu, auc, alc, are, arl, aih, aur, arc⟩
    rcases argn with _ | r
    · simp [truthyS] at hr
    · have hr2 : (r != "") = true := by simpa [truthyS] using hr
      simp only [Function.comp]
      rcases hu : usageLookup m.usage aid with _ | umeta <;>
        simp [metaToAccount, accountToMeta, truthyS, hr2, reloadExpected, hu]
  · rfl

/-- Claim C2, witness at the concrete pool `roundtripPool`. -/
theorem claim2_witness :
    (∀ a ∈ roundtripPool.accounts, truthyS a.region = true) ∧
      ((loadFromDisk (saveToDisk roundtripPool).1 (saveToDisk roundtripPool).2 roundtripPool.strategy).accounts
          = roundtripPool.accounts.map (reloadExpected roundtripPool.usage)
        ∧ (loadFromDisk (saveToDisk roundtripPool).1 (saveToDisk roundtripPool).2 roundtripPool.strategy).usage
          = roundtripPool.usage) :=
  ⟨by decide, claim2_roundtrip roundtripPool (by decide)⟩

/-! ## Claim C6: the lowest-usage scenario -/

/-- Claim C6: under the lowest-usage strategy with
A(used=5), B(used=1), C(used=3) and `lastUsed` unset, the first call (at
`t1 = 100`) returns B and leaves it at `usedCount = 2, lastUsed = t1`;
the second call (at `t2 = 200`) returns B again, leaving
`usedCount = 3, lastUsed = t2`; the third call returns C, which ties
with B at `usedCount = 3` but has the older (unset, treated as 0)
`lastUsed`. -/
theorem claim6_lowestUsage :
    (getCurrentOrNext lowPool0 100).1.map (fun a => a.id) = some "B" ∧
      (lowPool1.accounts.getD 1 dfltAccount).usedCount = some 2 ∧
      (lowPool1.accounts.getD 1 dfltAccount).lastUsed = some 100 ∧
      (getCurrentOrNext lowPool1 200).1.map (fun a => a.id) = some "B" ∧
      (lowPool2.accounts.getD 1 dfltAccount).usedCount = some 3 ∧
      (lowPool2.accounts.getD 1 dfltAccount).lastUsed = some 200 ∧
      (getCurrentOrNext lowPool2 300).1.map (fun a => a.id) = some "C" := by
  decide

/-! ## Claim C9: withFileLock ordering and release semantics -/

/-- Claim C9, counterexample: the successful-run trace is
`[access, acquireLock, runFn, releaseLock]` — the existence check
(`fs.access`, the head of `ensureFileExists`) strictly precedes lock
acquisition, so the claimed step order "acquire the lock, then ensure the
file exists, then run fn" (which would put `acquireLock` before `access`)
is false of the code. -/
theorem claim9_counterexample :
    lockTraceOk = [.access, .acquireLock, .runFn, .releaseLock] ∧
      ¬ [FsEvent.acquireLock, FsEvent.access].Sublist lockTraceOk := by
  decide

/-- Claim C9, amended: `withFileLock` ensures the file exists FIRST, then
acquires the lock, then runs `fn`; whenever acquisition succeeded the
release is attempted afterwards in all cases (including `fn` failure),
and a release failure is only logged — the result or exception of `fn`
stands unchanged; when acquisition fails, `fn` never runs, nothing is
released, and the acquisition error is propagated. -/
theorem claim9_amended (fe ro : Bool) (fr : Except String Nat) :
    ((withFileLock fe true fr ro).1 = fr) ∧
      [FsEvent.access, FsEvent.acquireLock, FsEvent.runFn, FsEvent.releaseLock].Sublist
        (withFileLock fe true fr ro).2 ∧
      ((withFileLock fe false fr ro).1 = Except.error "lock") ∧
      FsEvent.runFn ∉ (withFileLock fe false fr ro).2 ∧
      FsEvent.releaseLock ∉ (withFileLock fe false fr ro).2 ∧
      FsEvent.logWarn ∈ (withFileLock fe true fr false).2 := by
  refine ⟨?_, ?_, ?_, ?_, ?_, ?_⟩ <;> cases fe <;> cases ro <;> cases fr <;>
    simp [withFileLock, ensureFileExists]

/-! ## Claim C10: selection ignores quota exhaustion -/

/-- Claim C10: there is a reachable pool state — here, one loaded
directly from disk documents — in which `getCurrentOrNext` selects and
returns a healthy, non-rate-limited account whose quota classification is
exhausted; and in general the filter's keep-decision never reads the
quota counters: changing `usedCount`/`limitCount` arbitrarily never
changes it. -/
theorem claim10_exhaustedSelectable :
    checkQuotaStatus (exhaustedPool.accounts.getD 0 dfltAccount) = .exhausted ∧
      (exhaustedPool.accounts.getD 0 dfltAccount).isHealthy = true ∧
      (exhaustedPool.accounts.getD 0 dfltAccount).rateLimitResetTime = none ∧
      (getCurrentOrNext exhaustedPool 0).1.map (fun a => a.id) = some "X" ∧
      checkQuotaStatus ((getCurrentOrNext exhaustedPool 0).1.getD dfltAccount) = .exhausted ∧
      (∀ (a : ManagedAccount) (now : Nat) (uc lc : Option Nat),
        (availabilityStep now { a with usedCount := uc, limitCount := lc }).1 =
          (availabilityStep now a).1) := by
  refine ⟨by decide, by decide, by decide, by decide, by decide, ?_⟩
  intro a now uc lc
  rw [availability_fst, availability_fst]
  cases a
  rfl

/-! ## Claim C4: usage keys and pool membership -/

/-- Claim C4, counterexample: starting from a pool loaded from empty
documents, the single public operation `updateUsage("x", ...)` — a
member of the claim's operation list — creates a usage record keyed by
`"x"` although no account with that id exists: `updateUsage`
unconditionally upserts `this.usage[accountId]` even when the account
lookup fails, so the claimed invariant is not preserved. -/
theorem claim4_counterexample :
    usageKeysBound (runOps (loadFromDisk emptyAccountDoc emptyUsageDoc .sticky)
      [.opUpdateUsage "x" 1 2 none 0]) = false := by
  decide

/-- Claim C4, amended: provided the starting pool's usage keys all name
accounts present in the pool (true of a pool loaded from documents with
no orphan keys) and every `updateUsage` call in the sequence targets the
id of an account present at the moment of the call, every reachable
state's usage keys name accounts of the pool; and `removeAccount`
always deletes the removed account's usage record (no record keyed by
the removed id survives). -/
theorem claim4_amended (m : AccountManager) (ops : List PoolOp)
    (h1 : usageKeysBound m = true) (h2 : validOps m ops = true) :
    usageKeysBound (runOps m ops) = true ∧
      (∀ (m' : AccountManager) (acct : ManagedAccount),
        ∀ p ∈ (removeAccount m' acct).usage, p.1 ≠ acct.id) := by
  refine ⟨runOps_preserves ops m h1 h2, ?_⟩
  intro m' acct p hp
  have hmem := (List.mem_filter.mp
    (show p ∈ m'.usage.filter (fun q => q.1 != acct.id) from hp)).2
  simpa using hmem

/-- Claim C4, witness at `invariantPool` under `invariantOps`. -/
theorem claim4_witness :
    usageKeysBound invariantPool = true ∧
      validOps invariantPool invariantOps = true ∧
      (usageKeysBound (runOps invariantPool invariantOps) = true ∧
        (∀ (m' : AccountManager) (acct : ManagedAccount),
          ∀ p ∈ (removeAccount m' acct).usage, p.1 ≠ acct.id)) :=
  ⟨by decide, by decide, claim4_amended invariantPool invariantOps (by decide) (by decide)⟩

/-! ## Claim C5: round-robin cycles through all available accounts -/

/-- Claim C5: under the round-robin strategy, for every initial cursor
value and every pool with exactly `N >= 1` available accounts whose
available set is unchanged by the filter's recovery pass (the claim's
"stays unchanged across the calls"), `N` consecutive `getCurrentOrNext`
calls return the account of the filtered available list indexed at
`cursor mod N`, advance the cursor by 1 modulo `N`, and the `N` visited
filtered-list indices `(cursor + i) mod N` form a permutation of
`0..N-1` — each available account is returned exactly once before any
repeats. -/
theorem claim5_roundRobin (m : AccountManager) (now N : Nat)
    (hs : m.strategy = .roundRobin)
    (hStable : availIdx now (recoverAll now m.accounts) = availIdx now m.accounts)
    (hN : (availIdx now m.accounts).length = N)
    (hpos : 0 < N) :
    (∀ i, i < N → (runSelect m now N).1.get? i =
        some (some (bumpAccount now ((recoverAll now m.accounts).getD
          ((availIdx now m.accounts).getD ((m.cursor + i) % N) 0) dfltAccount)))) ∧
      ((List.range N).map (fun i => (m.cursor + i) % N)).Perm (List.range N) ∧
      (getCurrentOrNext m now).2.cursor = (m.cursor + 1) % N := by
  have hs1 : ({ m with accounts := recoverAll now m.accounts } : AccountManager).strategy
      = AccountSelectionStrategy.roundRobin := hs
  have hnp1 : NoPendingRecovery now
      ({ m with accounts := recoverAll now m.accounts } : AccountManager).accounts :=
    recoverAll_stable now m.accounts
  have hV1 : availIdx now ({ m with accounts := recoverAll now m.accounts } : AccountManager).accounts
      = availIdx now m.accounts := hStable
  have hfirst := getCurrentOrNext_recoverAll m now hStable
  refine ⟨?_, rrVisited_perm m.cursor N hpos, ?_⟩
  · intro i hi
    rcases N with _ | n
    · omega
    rw [runSelect_congr_first m _ now n hfirst]
    have := rr_run now (n + 1) { m with accounts := recoverAll now m.accounts } hs1 hnp1
      (availIdx now m.accounts) hV1 (by omega) (by omega) i hi
    rw [this, hN]
  · rw [hfirst, rr_step _ now hs1 hnp1 (by
      rw [hV1]
      rw [← hN] at hpos
      exact List.ne_nil_of_length_pos hpos)]
    simp only [hV1, hN]

/-- Claim C5, witness at the concrete pool `roundRobinPool` (N = 2,
cursor 5) and `now = 50`. -/
theorem claim5_witness :
    roundRobinPool.strategy = .roundRobin ∧
      availIdx 50 (recoverAll 50 roundRobinPool.accounts) = availIdx 50 roundRobinPool.accounts ∧
      (availIdx 50 roundRobinPool.accounts).length = 2 ∧
      0 < 2 ∧
      ((∀ i, i < 2 → (runSelect roundRobinPool 50 2).1.get? i =
          some (some (bumpAccount 50 ((recoverAll 50 roundRobinPool.accounts).getD
            ((availIdx 50 roundRobinPool.accounts).getD ((roundRobinPool.cursor + i) % 2) 0)
            dfltAccount)))) ∧
        ((List.range 2).map (fun i => (roundRobinPool.cursor + i) % 2)).Perm (List.range 2) ∧
        (getCurrentOrNext roundRobinPool 50).2.cursor = (roundRobinPool.cursor + 1) % 2) :=
  ⟨by decide, by decide, by decide, by decide,
    claim5_roundRobin roundRobinPool 50 2 (by decide) (by decide) (by decide) (by decide)⟩

end Kiro
